import Mathlib

/-!
Shallow embedding of the persistence layer of the cleora repository
(src/persistence.rs): the entity-mapping store, the three embedding
writers (line-oriented text, parquet/columnar, npy/memory-mapped) and
the shared `EmbeddingPersistor` lifecycle.

Rust `Result<(), io::Error>` returns are modelled by `RResult`, which
also has a `panicked` outcome for `unwrap`/`expect`/indexing panics.
Machine floats (`f32`) carry no arithmetic in this code — vectors are
only copied and formatted — so finite float values are represented by
rationals; the non-finite values relevant to the ryu formatter are
modelled by the dedicated `F32` type.  File I/O is modelled by an
explicit sink whose `failAt` field scripts which write call (if any)
fails with an I/O error, and by string/list fields holding the bytes
written so far.
-/

namespace Cleora

/-- Outcome of a Rust call returning `Result<(), io::Error>` on a `&mut self`
receiver: `ok st` / `err st` carry the mutated receiver, `panicked` models an
aborting panic (`unwrap`, `expect`, out-of-bounds indexing). -/
inductive RResult (σ : Type) where
  | ok (st : σ)
  | err (st : σ)
  | panicked
  deriving DecidableEq

/-- The `?` operator: propagate `err` and `panicked`, continue on `ok`. -/
def RResult.bind : RResult σ → (σ → RResult σ) → RResult σ
  | .ok st, f => f st
  | .err st, _ => .err st
  | .panicked, _ => .panicked

/-- True exactly on the `err` outcome. -/
def RResult.isErr : RResult σ → Bool
  | .err _ => true
  | _ => false

/-- A byte sink (buffered file).  `out` is everything written so far;
`failAt = some k` scripts an I/O error on the k-th write call (counting from
`writes`); `failAt = none` means no write ever fails. -/
structure Sink where
  out : String
  failAt : Option Nat
  writes : Nat
  deriving DecidableEq

/-- One `write_all`/`write!` call against the sink: fails iff the scripted
failure position is the current write index. -/
def Sink.writeAll (s : Sink) (data : String) : Option Sink :=
  if s.failAt = some s.writes then none
  else some { out := s.out ++ data, failAt := s.failAt, writes := s.writes + 1 }

/-- State of `TextFileVectorPersistor`: its buffered file and the
`produce_entity_occurrence_count` flag. -/
structure TextState where
  sink : Sink
  produceOcc : Bool
  deriving DecidableEq

/-- `TextFileVectorPersistor::new`: fresh file (no scripted failure). -/
def textNew (_filename : String) (produceOcc : Bool) : TextState :=
  { sink := { out := "", failAt := none, writes := 0 }, produceOcc := produceOcc }

/-- A single buffered write, with the `?` shape of the source. -/
def tfWrite (st : TextState) (data : String) : RResult TextState :=
  match st.sink.writeAll data with
  | some sk => .ok { st with sink := sk }
  | none => .err st

/-- `TextFileVectorPersistor::put_metadata`: `write!(w, "{} {}", n, d)`. -/
def textPutMetadata (st : TextState) (entityCount dimension : Nat) : RResult TextState :=
  tfWrite st (toString entityCount ++ " " ++ toString dimension)

/-- The per-coordinate loop of `TextFileVectorPersistor::put_data`: write a
space, format the value (`fmt v = none` models the formatter panicking), write
the rendering.  `fmt` abstracts `ryu::Buffer::format_finite`, an external
crate function. -/
def textWriteVector (fmt : α → Option String) : TextState → List α → RResult TextState
  | st, [] => .ok st
  | st, v :: rest =>
    match tfWrite st " " with
    | .ok st1 =>
      match fmt v with
      | some r =>
        match tfWrite st1 r with
        | .ok st2 => textWriteVector fmt st2 rest
        | other => other
      | none => .panicked
    | other => other

/-- `TextFileVectorPersistor::put_data`: newline, entity name, optional
occurrence count, then the coordinates. -/
def textPutData (fmt : α → Option String) (st : TextState) (entity : String)
    (occ : Nat) (vector : List α) : RResult TextState :=
  RResult.bind (tfWrite st "\n") fun st1 =>
  RResult.bind (tfWrite st1 entity) fun st2 =>
  RResult.bind (if st2.produceOcc then tfWrite st2 (" " ++ toString occ) else .ok st2) fun st3 =>
  textWriteVector fmt st3 vector

/-- `TextFileVectorPersistor::finish`: one trailing newline. -/
def textFinish (st : TextState) : RResult TextState :=
  tfWrite st "\n"

/-- The vector-rebuild step of `put_data_chunk`:
`vectors.into_iter().for_each(|x| vector.push(x[i]))`; `none` models the
out-of-bounds indexing panic. -/
def colAt : List (List α) → Nat → Option (List α)
  | [], _ => some []
  | d :: rest, i =>
    match d.get? i, colAt rest i with
    | some x, some xs => some (x :: xs)
    | _, _ => none

/-- One (entity, occurrence count, vector) record. -/
structure ERecord (α : Type) where
  name : String
  occur : Nat
  vec : List α
  deriving DecidableEq

/-- The loop body shared verbatim by `TextFileVectorPersistor::put_data_chunk`
and `NpyPersistor::put_data_chunk` (the two Rust bodies are identical): for
each i, index `occur_counts[i]`, rebuild the vector from column i, call
`put_data` and `.unwrap()` its result (so an inner `err` aborts as a panic). -/
def chunkLoop (put : σ → String → Nat → List α → RResult σ)
    (counts : List Nat) (dims : List (List α)) :
    σ → List String → Nat → RResult σ
  | st, [], _ => .ok st
  | st, entity :: rest, i =>
    match counts.get? i, colAt dims i with
    | some c, some vec =>
      match put st entity c vec with
      | .ok st1 => chunkLoop put counts dims st1 rest (i + 1)
      | _ => .panicked
    | _, _ => .panicked

/-- `TextFileVectorPersistor::put_data_chunk`. -/
def textPutDataChunk (fmt : α → Option String) (st : TextState)
    (names : List String) (counts : List Nat) (dims : List (List α)) : RResult TextState :=
  chunkLoop (textPutData fmt) counts dims st names 0

/-- Sequential `put_data` calls, propagating `err` with `?` (how a caller
submits records one by one). -/
def runRecords (put : σ → String → Nat → List α → RResult σ) :
    σ → List (ERecord α) → RResult σ
  | st, [] => .ok st
  | st, r :: rest => RResult.bind (put st r.name r.occur r.vec) fun st1 => runRecords put st1 rest

/-- Sequential `put_data` calls with `.unwrap()` applied to each result, the
submission discipline of the chunk loop. -/
def runRecordsU (put : σ → String → Nat → List α → RResult σ) :
    σ → List (ERecord α) → RResult σ
  | st, [] => .ok st
  | st, r :: rest =>
    match put st r.name r.occur r.vec with
    | .ok st1 => runRecordsU put st1 rest
    | _ => .panicked

/-- The record-reconstruction formula of the spec (claim C2): record i is
`(names[i], counts[i], [dims[0][i], ..., dims[D-1][i]])`. -/
def reconstructRecords (names : List String) (counts : List Nat)
    (dims : List (List ℚ)) : List (ERecord ℚ) :=
  (List.range names.length).map fun i =>
    ⟨names.getD i "", counts.getD i 0, dims.map fun d => d.getD i 0⟩

/-- State of `NpyPersistor`: the three derived paths, the list of files its
constructor created, the in-memory accumulators `entities` / `occurences`, the
declared shape, the memory-mapped matrix (rows of the `.npy` payload;
`shape = none` means `put_metadata` has not run and no mapping exists), and the
contents written to the two side files. -/
structure NpyState where
  entitiesPath : String
  occurencesPath : String
  arrayPath : String
  createdFiles : List String
  entities : List String
  occurences : List Nat
  shape : Option (Nat × Nat)
  matrix : List (List ℚ)
  entitiesOut : String
  occurencesOut : Option String
  deriving DecidableEq

/-- `NpyPersistor::new`: derive `<base>.entities`, `<base>.occurences`,
`<base>.npy`; create the entities file, the occurences file only when
`produce_entity_occurrence_count` is set, and the npy file (in that order). -/
def npyNew (filename : String) (produceOcc : Bool) : NpyState :=
  { entitiesPath := filename ++ ".entities"
    occurencesPath := filename ++ ".occurences"
    arrayPath := filename ++ ".npy"
    createdFiles :=
      [filename ++ ".entities"]
        ++ (if produceOcc then [filename ++ ".occurences"] else [])
        ++ [filename ++ ".npy"]
    entities := []
    occurences := []
    shape := none
    matrix := []
    entitiesOut := ""
    occurencesOut := if produceOcc then some "" else none }

/-- `NpyPersistor::put_metadata`: `write_zeroed_npy` preallocates the
zero-filled `entity_count x dimension` matrix file and the mapping is opened
over it (success path; a failure to size or map the file is returned as `Err`
and nothing observed by the claims happens). -/
def npyPutMetadata (st : NpyState) (entityCount dimension : Nat) : NpyState :=
  { st with
    shape := some (entityCount, dimension)
    matrix := List.replicate entityCount (List.replicate dimension 0) }

/-- `NpyPersistor::put_data`: panics via `expect` when `put_metadata` has not
run; writes the vector into row `entities.len()` of the mapped matrix
(`slice_mut(s![i, ..]).assign`, which panics when the row index is out of
bounds and broadcasts a length-1 vector across the row, panicking on any other
length mismatch), then pushes the name and occurrence count. -/
def npyPutData (st : NpyState) (entity : String) (occ : Nat)
    (vector : List ℚ) : RResult NpyState :=
  match st.shape with
  | none => .panicked
  | some (n, d) =>
    if st.entities.length < n ∧ vector.length = d then
      .ok { st with
            matrix := st.matrix.set st.entities.length vector
            entities := st.entities ++ [entity]
            occurences := st.occurences ++ [occ] }
    else if st.entities.length < n ∧ vector.length = 1 then
      .ok { st with
            matrix := st.matrix.set st.entities.length (List.replicate d vector.headI)
            entities := st.entities ++ [entity]
            occurences := st.occurences ++ [occ] }
    else .panicked

/-- `NpyPersistor::put_data_chunk` (same body as the text-writer chunk loop). -/
def npyPutDataChunk (st : NpyState) (names : List String) (counts : List Nat)
    (dims : List (List ℚ)) : RResult NpyState :=
  chunkLoop npyPutData counts dims st names 0

/-- `NpyPersistor::finish`: serialize the accumulated entity names to the
`.entities` file (via `serde_json::to_writer_pretty`, abstracted as
`jsonPretty`) and, when the occurences file exists, the accumulated counts to
it in npy format (via `write_npy`, abstracted as `npyEnc`). -/
def npyFinish (jsonPretty : List String → String) (npyEnc : List Nat → String)
    (st : NpyState) : RResult NpyState :=
  .ok { st with
        entitiesOut := st.entitiesOut ++ jsonPretty st.entities
        occurencesOut := st.occurencesOut.map fun s => s ++ npyEnc st.occurences }

/-- Arrow data types appearing in the parquet schema. -/
inductive ADType where
  | utf8
  | uint32
  | float32
  deriving DecidableEq

/-- One arrow column of a written row group. -/
inductive ACol where
  | strCol (vals : List String)
  | u32Col (vals : List Nat)
  | f32Col (vals : List ℚ)
  deriving DecidableEq

/-- The fixed parquet `WriteOptions` of the source. -/
structure WriteOpts where
  writeStatistics : Bool
  compression : String
  version : Nat
  deriving DecidableEq

/-- Destination of the parquet bytes: a local file or the S3 sink. -/
inductive PDest where
  | toFile (name : String)
  | toS3 (name : String)
  deriving DecidableEq

/-- Rust `str::replace` with a nonempty pattern: every non-overlapping
occurrence of `pat`, scanning left to right, is replaced by `rep`.  The fuel
argument (instantiated with the input length) only makes the recursion
structural: each step consumes at least one character, so with nonempty `pat`
the fuel-exhaustion arm is unreachable (and the `[]` arm is listed first). -/
def replaceAllGo (pat rep : List Char) : Nat → List Char → List Char
  | _, [] => []
  | 0, s => s
  | fuel + 1, c :: rest =>
    if pat.isPrefixOf (c :: rest) then
      rep ++ replaceAllGo pat rep fuel ((c :: rest).drop pat.length)
    else
      c :: replaceAllGo pat rep fuel rest

/-- `String.replace` as called by the source (`filename.replace(".out", ..)`). -/
def rustReplace (s pat rep : String) : String :=
  if pat.data.isEmpty then s
  else ⟨replaceAllGo pat.data rep.data s.data.length s.data⟩

/-- Rust `str::starts_with` on literal strings. -/
def strStartsWith (s pre : String) : Bool :=
  pre.data.isPrefixOf s.data

/-- State of `ParquetVectorPersistor`: the schema, write options and per-field
encodings fixed at construction, the derived output file name and destination,
the row groups flushed so far, the construction-time timestamp string, and
whether `finish` has closed the container. -/
structure ParquetState where
  schemaFields : List (String × ADType)
  options : WriteOpts
  encodings : List String
  fileName : String
  dest : PDest
  rowGroups : List (List ACol)
  timestamp : String
  closed : Bool
  deriving DecidableEq

/-- `ParquetVectorPersistor::new`.  `tsName` is the construction-time UTC
timestamp rendered as `YYYYMMDDTHHMMSS` (used in the file name), `tsCol` the
same instant rendered as `%F %X` (stored and repeated in the datetime column);
both are captured once, here. -/
def parquetNew (filename : String) (dimension : Nat) (tsName tsCol : String) : ParquetState :=
  let fields :=
    [("entity", ADType.utf8), ("occur_count", ADType.uint32), ("datetime", ADType.utf8)]
      ++ (List.range dimension).map fun x => ("f" ++ toString x, ADType.float32)
  let fileName := rustReplace filename ".out" ("_" ++ tsName ++ ".parquet")
  { schemaFields := fields
    options := { writeStatistics := false, compression := "snappy", version := 2 }
    encodings := fields.map fun _ => "plain"
    fileName := fileName
    dest := if strStartsWith fileName "s3://" then .toS3 fileName else .toFile fileName
    rowGroups := []
    timestamp := tsCol
    closed := false }

/-- `ParquetVectorPersistor::put_metadata`: `Ok(())`, nothing else. -/
def parquetPutMetadata (st : ParquetState) (_entityCount _dimension : Nat) : RResult ParquetState :=
  .ok st

/-- `ParquetVectorPersistor::put_data`: the body is exactly `Ok(())` — the
single-record path is an unconditional no-op. -/
def parquetPutData (st : ParquetState) (_entity : String) (_occ : Nat)
    (_vector : List ℚ) : RResult ParquetState :=
  .ok st

/-- `ParquetVectorPersistor::put_data_chunk`: build the column group — entity
strings, occurrence counts, the construction timestamp repeated once per row,
then one float column per dimension (the transposed batch already is the
native layout) — and flush it as one row group. -/
def parquetPutDataChunk (st : ParquetState) (names : List String)
    (counts : List Nat) (dims : List (List ℚ)) : RResult ParquetState :=
  .ok { st with
        rowGroups := st.rowGroups ++
          [[ACol.strCol names, ACol.u32Col counts,
            ACol.strCol (List.replicate names.length st.timestamp)]
            ++ dims.map ACol.f32Col] }

/-- `ParquetVectorPersistor::finish`: `writer.end` closes the container. -/
def parquetFinish (st : ParquetState) : RResult ParquetState :=
  .ok { st with closed := true }

/-- A record-writing call against the parquet writer. -/
inductive PCall where
  | single (entity : String) (occ : Nat) (vec : List ℚ)
  | chunkC (names : List String) (counts : List Nat) (dims : List (List ℚ))
  deriving DecidableEq

/-- Whether a call is a batch (`put_data_chunk`) call. -/
def PCall.isChunk : PCall → Bool
  | .chunkC .. => true
  | _ => false

/-- Run a sequence of interleaved single-record and batch calls. -/
def runPCalls : ParquetState → List PCall → RResult ParquetState
  | st, [] => .ok st
  | st, c :: rest =>
    RResult.bind
      (match c with
       | .single e o v => parquetPutData st e o v
       | .chunkC ns cs ds => parquetPutDataChunk st ns cs ds)
      fun st1 => runPCalls st1 rest

/-- The datetime column (index 2 of the schema) of a row group. -/
def timestampCol (g : List ACol) : List String :=
  match g.get? 2 with
  | some (ACol.strCol vs) => vs
  | _ => []

/-- The table inside `InMemoryEntityMappingPersistor`: a map from 64-bit hash
(as `Nat`) to entity name. -/
def EntityMappings : Type := Nat → Option String

/-- The `Default` empty table. -/
def emptyMappings : EntityMappings := fun _ => none

/-- `InMemoryEntityMappingPersistor::put_data`: `HashMap::insert`, overwriting
any previous binding of the hash. -/
def emPutData (m : EntityMappings) (hsh : Nat) (entity : String) : EntityMappings :=
  fun h => if h = hsh then some entity else m h

/-- `InMemoryEntityMappingPersistor::get_entity`: `HashMap::get`. -/
def emGetEntity (m : EntityMappings) (hsh : Nat) : Option String :=
  m hsh

/-- `InMemoryEntityMappingPersistor::contains`: `HashMap::contains_key`. -/
def emContains (m : EntityMappings) (hsh : Nat) : Bool :=
  (emGetEntity m hsh).isSome

/-- The table resulting from a sequence of `put_data` calls on a fresh store. -/
def buildMappings (ops : List (Nat × String)) : EntityMappings :=
  ops.foldl (fun m p => emPutData m p.1 p.2) emptyMappings

/-- An `f32` as seen by the ryu formatter: finite (here: its exact rational
value, faithful because the code only copies and prints coordinates), or one
of the non-finite values. -/
inductive F32 where
  | finite (val : ℚ)
  | nan
  | posInf
  | negInf
  deriving DecidableEq

/-- Finiteness of an `F32`. -/
def F32.isFinite : F32 → Bool
  | .finite _ => true
  | _ => false

/-- Modelled from the spec: `ryu::Buffer::format_finite` (external crate) —
it performs no finiteness check: it renders finite floats via the
shortest-round-trip decimal rendering and, per its documented contract,
prints some correctly formatted but unspecified numerical value on NaN and
the infinities, never panicking.  `render` abstracts that total rendering
(shortest-round-trip on finite values, unspecified on the rest). -/
def formatFinite (render : F32 → String) : F32 → Option String :=
  fun v => some (render v)

/-- The spec's words for the Columnar Writer file naming (claim C6): rewrite
the `".out"` suffix of the base path into `"_<timestamp>.parquet"`. -/
def specRewriteOutSuffix (s tsName : String) : String :=
  if ".out".data.isSuffixOf s.data then
    ⟨s.data.take (s.data.length - 4)⟩ ++ "_" ++ tsName ++ ".parquet"
  else s

/-- Concatenation of a list of rendered fragments (claim C4 helper). -/
def joinAll : List String → String
  | [] => ""
  | s :: rest => s ++ joinAll rest

/-- The spec's words for one record line of the Line-Oriented Writer (claim
C4): a line break, the entity name, iff enabled a space and the occurrence
count, then a space before each rendered coordinate. -/
def specLine (produceOcc : Bool) (entity : String) (occ : Nat)
    (rendered : List String) : String :=
  "\n" ++ entity ++ (if produceOcc then " " ++ toString occ else "")
    ++ joinAll (rendered.map fun r => " " ++ r)

/-- The rendering of every coordinate of a vector; `none` when the formatter
panics on some coordinate. -/
def renderAll (fmt : α → Option String) : List α → Option (List String)
  | [] => some []
  | v :: rest =>
    match fmt v, renderAll fmt rest with
    | some r, some rs => some (r :: rs)
    | _, _ => none

/-- Observation of the bytes written so far, defined on the `ok` outcome. -/
def RResult.okOut : RResult TextState → Option String
  | .ok st => some st.sink.out
  | _ => none

/-- A total stand-in formatter (used to instantiate claims whose content does
not depend on the rendered digits). -/
def constFmt : ℚ → Option String := fun _ => some "0"

/-- A text-writer state whose next write call fails with an I/O error. -/
def failingText : TextState :=
  { sink := { out := "", failAt := some 0, writes := 0 }, produceOcc := false }

/-- A fixed timestamp string for concrete instances. -/
def tsName0 : String := "20200101T000000"

/-- A stand-in total renderer for concrete instances. -/
def renderW : F32 → String := fun _ => "0"

/-- A stand-in for `serde_json::to_writer_pretty` on a name list, for concrete
instances. -/
def jsonDump : List String → String := fun l => String.join l

/-- A stand-in npy encoder for a count list, for concrete instances. -/
def npyDump : List Nat → String := fun l => toString l.length

/-- A concrete formatter agreeing with ryu on the two coordinates of the
claim C4 example record. -/
def fmtW : ℚ → Option String :=
  fun q => if q = 1.5 then some "1.5" else if q = -2.0 then some "-2.0" else some "0"

/-- A concrete two-batch call sequence against the Columnar Writer. -/
def pqCalls : List PCall :=
  [PCall.chunkC ["a"] [1] [[1]], PCall.chunkC ["b"] [2] [[2]]]

/-- The first row group produced by `pqCalls`. -/
def pqGroup0 : List ACol :=
  [ACol.strCol ["a"], ACol.u32Col [1], ACol.strCol ["T0"], ACol.f32Col [1]]

/-- The state of the Columnar Writer constructed on `"e.out"` after `pqCalls`. -/
def pqFinal : ParquetState :=
  { schemaFields := [("entity", ADType.utf8), ("occur_count", ADType.uint32),
                     ("datetime", ADType.utf8), ("f0", ADType.float32)]
    options := { writeStatistics := false, compression := "snappy", version := 2 }
    encodings := ["plain", "plain", "plain", "plain"]
    fileName := "e_TS.parquet"
    dest := PDest.toFile "e_TS.parquet"
    rowGroups := [pqGroup0,
                  [ACol.strCol ["b"], ACol.u32Col [2], ACol.strCol ["T0"],
                   ACol.f32Col [2]]]
    timestamp := "T0"
    closed := false }

/-! ## Helper lemmas -/

theorem foldl_emPutData_untouched (ops : List (Nat × String)) (m : EntityMappings)
    (hsh : Nat) (h : hsh ∉ ops.map Prod.fst) :
    (ops.foldl (fun m p => emPutData m p.1 p.2) m) hsh = m hsh := by
  induction ops generalizing m with
  | nil => rfl
  | cons p rest ih =>
    simp only [List.map_cons, List.mem_cons, not_or] at h
    simp only [List.foldl_cons]
    rw [ih _ h.2]
    simp [emPutData, h.1]

theorem tfWrite_ne_panicked (st : TextState) (data : String) :
    tfWrite st data ≠ .panicked := by
  unfold tfWrite
  cases st.sink.writeAll data <;> simp

theorem RResult.bind_ne_panicked {r : RResult σ} {f : σ → RResult σ}
    (h1 : r ≠ .panicked) (h2 : ∀ s, f s ≠ .panicked) :
    RResult.bind r f ≠ .panicked := by
  cases r with
  | ok s => exact h2 s
  | err s => simp [RResult.bind]
  | panicked => exact absurd rfl h1

theorem textWriteVector_ne_panicked (fmt : α → Option String) :
    ∀ (vec : List α) (st : TextState), (∀ v ∈ vec, (fmt v).isSome = true) →
      textWriteVector fmt st vec ≠ .panicked := by
  intro vec
  induction vec with
  | nil => intro st _; simp [textWriteVector]
  | cons v rest ih =>
    intro st h
    unfold textWriteVector
    cases h1 : tfWrite st " " with
    | ok st1 =>
      dsimp only
      cases h2 : fmt v with
      | none =>
        have hv := h v (by simp)
        rw [h2] at hv
        simp at hv
      | some r =>
        dsimp only
        cases h3 : tfWrite st1 r with
        | ok st2 => exact ih st2 fun x hx => h x (by simp [hx])
        | err st2 => simp
        | panicked => exact absurd h3 (tfWrite_ne_panicked st1 r)
    | err st1 => simp
    | panicked => exact absurd h1 (tfWrite_ne_panicked st " ")

theorem textPutData_ne_panicked (fmt : α → Option String) (st : TextState)
    (entity : String) (occ : Nat) (vector : List α)
    (h : ∀ v ∈ vector, (fmt v).isSome = true) :
    textPutData fmt st entity occ vector ≠ .panicked := by
  unfold textPutData
  refine RResult.bind_ne_panicked (tfWrite_ne_panicked _ _) fun s1 => ?_
  refine RResult.bind_ne_panicked (tfWrite_ne_panicked _ _) fun s2 => ?_
  refine RResult.bind_ne_panicked ?_ fun s3 => textWriteVector_ne_panicked fmt vector s3 h
  split
  · exact tfWrite_ne_panicked _ _
  · simp

theorem chunkLoop_isErr_false (put : σ → String → Nat → List α → RResult σ)
    (counts : List Nat) (dims : List (List α)) :
    ∀ (names : List String) (i : Nat) (st : σ),
      (chunkLoop put counts dims st names i).isErr = false := by
  intro names
  induction names with
  | nil => intro i st; rfl
  | cons nm rest ih =>
    intro i st
    unfold chunkLoop
    cases counts.get? i with
    | none => rfl
    | some c =>
      cases colAt dims i with
      | none => rfl
      | some vec =>
        dsimp only
        cases put st nm c vec with
        | ok st1 => exact ih (i + 1) st1
        | err st1 => rfl
        | panicked => rfl

theorem npyPutData_isErr_false (st : NpyState) (entity : String) (occ : Nat)
    (vector : List ℚ) : (npyPutData st entity occ vector).isErr = false := by
  unfold npyPutData
  cases st.shape with
  | none => rfl
  | some p =>
    obtain ⟨n, d⟩ := p
    dsimp only
    split
    · rfl
    · split <;> rfl

/-! ## Claims -/

/-- Claim C9: on the Identifier Map, `insert(h, e)` makes `has(h)` true and
`lookup(h)` return `e`; a second insert at the same hash overwrites
(last write wins); a hash never inserted looks up to nothing and `has` is
false. -/
theorem claim_C9 :
    (∀ (m : EntityMappings) (hsh : Nat) (e : String),
      emGetEntity (emPutData m hsh e) hsh = some e
        ∧ emContains (emPutData m hsh e) hsh = true)
    ∧ (∀ (m : EntityMappings) (hsh : Nat) (e₁ e₂ : String),
      emGetEntity (emPutData (emPutData m hsh e₁) hsh e₂) hsh = some e₂)
    ∧ (∀ (ops : List (Nat × String)) (hsh : Nat), hsh ∉ ops.map Prod.fst →
      emGetEntity (buildMappings ops) hsh = none
        ∧ emContains (buildMappings ops) hsh = false) := by
  refine ⟨fun m hsh e => ?_, fun m hsh e₁ e₂ => ?_, fun ops hsh h => ?_⟩
  · constructor <;> simp [emGetEntity, emContains, emPutData]
  · simp [emGetEntity, emPutData]
  · have hb := foldl_emPutData_untouched ops emptyMappings hsh h
    have hg : emGetEntity (buildMappings ops) hsh = none := hb
    exact ⟨hg, by simp [emContains, hg]⟩

/-- Witness for claim C9 at a concrete never-inserted hash. -/
theorem claim_C9_witness :
    emGetEntity (buildMappings [(1, "a")]) 2 = none
      ∧ emContains (buildMappings [(1, "a")]) 2 = false :=
  claim_C9.2.2 [(1, "a")] 2 (by decide)

/-- Claim C5: the Columnar Writer's single-record `put_data` always returns
`Ok` and leaves the state untouched, so a call sequence interleaving
`put_data` with `put_data_chunk` produces the same final outcome as the chunk
calls alone. -/
theorem claim_C5 :
    (∀ (st : ParquetState) (entity : String) (occ : Nat) (vector : List ℚ),
      parquetPutData st entity occ vector = .ok st)
    ∧ (∀ (st : ParquetState) (calls : List PCall),
      runPCalls st calls = runPCalls st (calls.filter PCall.isChunk)) := by
  refine ⟨fun _ _ _ _ => rfl, fun st calls => ?_⟩
  induction calls generalizing st with
  | nil => rfl
  | cons c rest ih =>
    cases c with
    | single e o v => exact ih st
    | chunkC ns cs ds => exact ih _

/-- Counterexample to claim C6 as stated: on the base path `"a.out.out"`,
which is `".out"`-suffixed, the code rewrites both occurrences of `".out"`
(`String::replace` replaces every occurrence), not only the suffix. -/
theorem claim_C6_counterexample :
    (parquetNew "a.out.out" 0 tsName0 "T").fileName
        = "a_20200101T000000.parquet_20200101T000000.parquet"
      ∧ (parquetNew "a.out.out" 0 tsName0 "T").fileName
        ≠ specRewriteOutSuffix "a.out.out" tsName0 := by
  constructor
  · decide
  · decide

/-- Claim C6 as amended: the output file name replaces every occurrence of
the substring `".out"` in the base path (not only a suffix occurrence) with
`"_<construction timestamp>.parquet"`, and the bytes are routed to the S3
sink exactly when the resulting name starts with `"s3://"`, otherwise to a
local file; when `".out"` occurs only as the suffix this coincides with the
suffix rewrite the spec describes. -/
theorem claim_C6 :
    (∀ (filename : String) (dimension : Nat) (tsName tsCol : String),
      (parquetNew filename dimension tsName tsCol).fileName
        = rustReplace filename ".out" ("_" ++ tsName ++ ".parquet"))
    ∧ (∀ (filename : String) (dimension : Nat) (tsName tsCol : String),
      (parquetNew filename dimension tsName tsCol).dest
        = if strStartsWith (parquetNew filename dimension tsName tsCol).fileName "s3://"
          then PDest.toS3 (parquetNew filename dimension tsName tsCol).fileName
          else PDest.toFile (parquetNew filename dimension tsName tsCol).fileName)
    ∧ (parquetNew "emb.out" 2 tsName0 "T").fileName = "emb_20200101T000000.parquet"
    ∧ (parquetNew "emb.out" 2 tsName0 "T").dest
        = PDest.toFile "emb_20200101T000000.parquet"
    ∧ (parquetNew "s3://bucket/emb.out" 2 tsName0 "T").dest
        = PDest.toS3 "s3://bucket/emb_20200101T000000.parquet" := by
  refine ⟨fun _ _ _ _ => rfl, fun _ _ _ _ => rfl, ?_, ?_, ?_⟩ <;> decide

/-- Counterexample to claim C3 as stated: a batch of one record submitted to
the line-oriented writer whose very first record write fails with an I/O
error does not surface an `Err` — `put_data_chunk` unwraps the inner result
and panics. -/
theorem claim_C3_counterexample :
    textPutDataChunk constFmt failingText ["a"] [1] ([] : List (List ℚ))
        = RResult.panicked
      ∧ (textPutDataChunk constFmt failingText ["a"] [1] ([] : List (List ℚ))).isErr
        = false := by
  constructor
  · rfl
  · rfl

/-- Claim C3 as amended: on the line-oriented writer the single-record
`put_data` path returns I/O failures as recoverable `Err` values (it never
aborts as long as the formatter succeeds), but the batch path
`put_data_chunk` never returns an `Err` on either writer — it `.unwrap()`s
each inner `put_data` result, turning any I/O failure into an abort — and
the mapped-array writer's `put_data` performs no fallible I/O at all (its
writes are memory-mapped stores). -/
theorem claim_C3 :
    (∀ (fmt : ℚ → Option String) (st : TextState) (entity : String) (occ : Nat)
        (vector : List ℚ), (∀ v ∈ vector, (fmt v).isSome = true) →
      textPutData fmt st entity occ vector ≠ RResult.panicked)
    ∧ (∀ (fmt : ℚ → Option String) (st : TextState) (names : List String)
        (counts : List Nat) (dims : List (List ℚ)),
      (textPutDataChunk fmt st names counts dims).isErr = false)
    ∧ (∀ (st : NpyState) (entity : String) (occ : Nat) (vector : List ℚ),
      (npyPutData st entity occ vector).isErr = false)
    ∧ (∀ (st : NpyState) (names : List String) (counts : List Nat)
        (dims : List (List ℚ)),
      (npyPutDataChunk st names counts dims).isErr = false) :=
  ⟨fun fmt st e occ vec h => textPutData_ne_panicked fmt st e occ vec h,
   fun fmt st ns cs ds => chunkLoop_isErr_false (textPutData fmt) cs ds ns 0 st,
   fun st e occ v => npyPutData_isErr_false st e occ v,
   fun st ns cs ds => chunkLoop_isErr_false npyPutData cs ds ns 0 st⟩

/-- Witness for claim C3 on a concrete record with a total formatter. -/
theorem claim_C3_witness :
    textPutData constFmt (textNew "w" false) "e" 1 [(1 : ℚ)] ≠ RResult.panicked :=
  claim_C3.1 constFmt (textNew "w" false) "e" 1 [1] (by decide)

theorem tfWrite_noFail (st : TextState) (data : String) (h : st.sink.failAt = none) :
    tfWrite st data
      = .ok { st with sink := { out := st.sink.out ++ data, failAt := none,
                                writes := st.sink.writes + 1 } } := by
  simp [tfWrite, Sink.writeAll, h]


theorem colAt_eq (a : α) : ∀ (dims : List (List α)) (i : Nat),
    (∀ d ∈ dims, i < d.length) →
    colAt dims i = some (dims.map fun d => d.getD i a) := by
  intro dims
  induction dims with
  | nil => intro i _; rfl
  | cons d rest ih =>
    intro i h
    have hd : i < d.length := h d (by simp)
    unfold colAt
    rw [List.get?_eq_get hd, ih i fun x hx => h x (by simp [hx])]
    dsimp only
    rw [List.map_cons]
    have : d.getD i a = d.get ⟨i, hd⟩ := by
      rw [List.getD_eq_get?, List.get?_eq_get hd]
      rfl
    rw [this]

theorem chunkLoop_eq_runRecordsU (put : σ → String → Nat → List ℚ → RResult σ)
    (counts : List Nat) (dims : List (List ℚ)) :
    ∀ (names : List String) (i : Nat) (st : σ),
      (∀ j, j < names.length → i + j < counts.length) →
      (∀ d ∈ dims, ∀ j, j < names.length → i + j < d.length) →
      chunkLoop put counts dims st names i
        = runRecordsU put st ((List.range names.length).map fun j =>
            (⟨names.getD j "", counts.getD (i + j) 0,
              dims.map fun d => d.getD (i + j) 0⟩ : ERecord ℚ)) := by
  intro names
  induction names with
  | nil => intro i st _ _; rfl
  | cons nm rest ih =>
    intro i st h1 h2
    have hc : i < counts.length := by
      have := h1 0 (by simp)
      simpa using this
    have hcol : colAt dims i = some (dims.map fun d => d.getD i 0) :=
      colAt_eq 0 dims i fun d hd => by
        have := h2 d hd 0 (by simp)
        simpa using this
    have hcv : counts.get ⟨i, hc⟩ = counts.getD i 0 := by
      rw [List.getD_eq_get?, List.get?_eq_get hc]
      rfl
    unfold chunkLoop
    rw [List.get?_eq_get hc, hcol]
    dsimp only
    rw [List.length_cons, List.range_succ_eq_map, List.map_cons, List.map_map]
    show _ = runRecordsU put st
      ((⟨nm, counts.getD (i + 0) 0, dims.map fun d => d.getD (i + 0) 0⟩ : ERecord ℚ)
        :: (List.range rest.length).map _)
    unfold runRecordsU
    dsimp only
    simp only [Nat.add_zero]
    rw [← hcv]
    have hmap :
        ((List.range rest.length).map
          ((fun j => (⟨(nm :: rest).getD j "", counts.getD (i + j) 0,
              dims.map fun d => d.getD (i + j) 0⟩ : ERecord ℚ)) ∘ Nat.succ))
        = (List.range rest.length).map fun j =>
            (⟨rest.getD j "", counts.getD (i + 1 + j) 0,
              dims.map fun d => d.getD (i + 1 + j) 0⟩ : ERecord ℚ) := by
      refine List.map_congr_left fun j _ => ?_
      have hij : i + (j + 1) = i + 1 + j := by omega
      simp [Function.comp, hij]
    rw [hmap]
    cases put st nm (counts.get ⟨i, hc⟩) (dims.map fun d => d.getD i 0) with
    | ok st1 =>
      exact ih (i + 1) st1 (fun j hj => by have := h1 (j + 1) (by simpa using hj); omega)
        (fun d hd j hj => by have := h2 d hd (j + 1) (by simpa using hj); omega)
    | err st1 => rfl
    | panicked => rfl

/-- Claim C2: on the text and mapped-array writers, `put_data_chunk` on a
transposed batch with equal column lengths reconstructs record i as
`(names[i], counts[i], [dims[0][i], ..., dims[D-1][i]])` — coordinate j of
record i is `dims[j][i]` — and submits the reconstructed records via
`put_data` in batch order (unwrapping each result, as the source does); in
particular the batch `names=["a","b"], counts=[1,2], columns=[[1,2],[3,4]]`
reconstructs `a=(1,[1,3])` then `b=(2,[2,4])`. -/
theorem claim_C2 :
    (∀ (fmt : ℚ → Option String) (st : TextState) (names : List String)
        (counts : List Nat) (dims : List (List ℚ)),
      counts.length = names.length → (∀ d ∈ dims, d.length = names.length) →
      textPutDataChunk fmt st names counts dims
        = runRecordsU (textPutData fmt) st (reconstructRecords names counts dims))
    ∧ (∀ (st : NpyState) (names : List String) (counts : List Nat)
        (dims : List (List ℚ)),
      counts.length = names.length → (∀ d ∈ dims, d.length = names.length) →
      npyPutDataChunk st names counts dims
        = runRecordsU npyPutData st (reconstructRecords names counts dims))
    ∧ reconstructRecords ["a", "b"] [1, 2] [[1, 2], [3, 4]]
        = [⟨"a", 1, [1, 3]⟩, ⟨"b", 2, [2, 4]⟩] := by
  refine ⟨fun fmt st ns cs ds hc hd => ?_, fun st ns cs ds hc hd => ?_, by decide⟩
  · have := chunkLoop_eq_runRecordsU (textPutData fmt) cs ds ns 0 st
      (fun j hj => by omega) (fun d hdm j hj => by rw [hd d hdm]; omega)
    simpa [textPutDataChunk, reconstructRecords] using this
  · have := chunkLoop_eq_runRecordsU npyPutData cs ds ns 0 st
      (fun j hj => by omega) (fun d hdm j hj => by rw [hd d hdm]; omega)
    simpa [npyPutDataChunk, reconstructRecords] using this

/-- Witness for claim C2 at the spec's concrete batch on the text writer. -/
theorem claim_C2_witness :
    textPutDataChunk constFmt (textNew "t" true) ["a", "b"] [1, 2] [[1, 2], [3, 4]]
      = runRecordsU (textPutData constFmt) (textNew "t" true)
          (reconstructRecords ["a", "b"] [1, 2] [[1, 2], [3, 4]]) :=
  claim_C2.1 constFmt (textNew "t" true) ["a", "b"] [1, 2] [[1, 2], [3, 4]]
    (by decide) (by decide)

theorem runPCalls_timestamp :
    ∀ (calls : List PCall) (st : ParquetState),
      (∀ g ∈ st.rowGroups, ∀ s ∈ timestampCol g, s = st.timestamp) →
      ∃ st1, runPCalls st calls = .ok st1
        ∧ st1.timestamp = st.timestamp
        ∧ ∀ g ∈ st1.rowGroups, ∀ s ∈ timestampCol g, s = st1.timestamp := by
  intro calls
  induction calls with
  | nil => intro st h; exact ⟨st, rfl, rfl, h⟩
  | cons c rest ih =>
    intro st h
    cases c with
    | single e o v => exact ih st h
    | chunkC ns cs ds =>
      have h1 : ∀ g ∈ (st.rowGroups ++
            [[ACol.strCol ns, ACol.u32Col cs,
              ACol.strCol (List.replicate ns.length st.timestamp)]
              ++ ds.map ACol.f32Col]),
          ∀ s ∈ timestampCol g, s = st.timestamp := by
        intro g hg s hs
        rcases List.mem_append.mp hg with hgo | hgn
        · exact h g hgo s hs
        · have hg1 : g = [ACol.strCol ns, ACol.u32Col cs,
              ACol.strCol (List.replicate ns.length st.timestamp)]
              ++ ds.map ACol.f32Col := by simpa using hgn
          rw [hg1] at hs
          have : timestampCol ([ACol.strCol ns, ACol.u32Col cs,
              ACol.strCol (List.replicate ns.length st.timestamp)]
              ++ ds.map ACol.f32Col) = List.replicate ns.length st.timestamp := rfl
          rw [this] at hs
          exact List.eq_of_mem_replicate hs
      obtain ⟨st2, hrun, hts, hinv⟩ :=
        ih { st with rowGroups := st.rowGroups ++
              [[ACol.strCol ns, ACol.u32Col cs,
                ACol.strCol (List.replicate ns.length st.timestamp)]
                ++ ds.map ACol.f32Col] } h1
      exact ⟨st2, hrun, hts, hinv⟩

/-- Claim C7: on the Columnar Writer, every row of every row group written by
any sequence of batch calls carries the one timestamp string captured at
construction time. -/
theorem claim_C7 (filename : String) (dimension : Nat) (tsName tsCol : String)
    (calls : List PCall) (st1 : ParquetState)
    (hrun : runPCalls (parquetNew filename dimension tsName tsCol) calls = .ok st1) :
    ∀ g ∈ st1.rowGroups, ∀ s ∈ timestampCol g, s = tsCol := by
  obtain ⟨st2, hrun2, hts, hinv⟩ :=
    runPCalls_timestamp calls (parquetNew filename dimension tsName tsCol)
      (by intro g hg; simp [parquetNew] at hg)
  rw [hrun] at hrun2
  cases hrun2
  intro g hg s hs
  exact (hinv g hg s hs).trans hts

/-- Witness for claim C7: a concrete run of two batch calls; the first group's
timestamp cell is the construction-time stamp. -/
theorem claim_C7_witness :
    runPCalls (parquetNew "e.out" 1 "TS" "T0") pqCalls = .ok pqFinal
      ∧ pqGroup0 ∈ pqFinal.rowGroups
      ∧ "T0" ∈ timestampCol pqGroup0
      ∧ "T0" = "T0" := by
  refine ⟨by decide, by decide, by decide, ?_⟩
  exact claim_C7 "e.out" 1 "TS" "T0" pqCalls pqFinal (by decide) pqGroup0
    (by decide) "T0" (by decide)

theorem textWriteVector_okOut (fmt : α → Option String) :
    ∀ (vec : List α) (st : TextState) (rendered : List String),
      st.sink.failAt = none → renderAll fmt vec = some rendered →
      (textWriteVector fmt st vec).okOut
        = some (st.sink.out ++ joinAll (rendered.map fun r => " " ++ r)) := by
  intro vec
  induction vec with
  | nil =>
    intro st rendered _ hr
    simp only [renderAll, Option.some.injEq] at hr
    subst hr
    simp [textWriteVector, RResult.okOut, joinAll]
  | cons v rest ih =>
    intro st rendered h hr
    unfold renderAll at hr
    cases hfv : fmt v with
    | none =>
      rw [hfv] at hr
      cases hra : renderAll fmt rest with
      | none => rw [hra] at hr; simp at hr
      | some rs => rw [hra] at hr; simp at hr
    | some r =>
      rw [hfv] at hr
      cases hra : renderAll fmt rest with
      | none => rw [hra] at hr; simp at hr
      | some rs =>
        rw [hra] at hr
        dsimp only at hr
        injection hr with hr
        subst hr
        unfold textWriteVector
        rw [tfWrite_noFail st " " h]
        dsimp only
        rw [hfv]
        dsimp only
        rw [tfWrite_noFail _ r rfl]
        dsimp only
        rw [ih _ rs rfl hra]
        simp [joinAll, String.append_assoc]

/-- Claim C4: the Line-Oriented Writer's header is exactly
`"<entity_count> <dimension>"` with no line break; each `put_data` appends a
line break, the name, iff enabled a space and the count, then a space before
each rendered coordinate; `finish` appends exactly one line break; and the
concrete run of the spec produces exactly `"2 2\nx 5 1.5 -2.0\n"` (the
formatter is abstract, constrained to ryu's actual renderings of the two
example coordinates). -/
theorem claim_C4 (fmt : ℚ → Option String) (hf₁ : fmt 1.5 = some "1.5")
    (hf₂ : fmt (-2.0) = some "-2.0") :
    (∀ (st : TextState) (entityCount dimension : Nat), st.sink.failAt = none →
      (textPutMetadata st entityCount dimension).okOut
        = some (st.sink.out ++ (toString entityCount ++ " " ++ toString dimension)))
    ∧ (∀ (st : TextState) (entity : String) (occ : Nat) (vec : List ℚ)
        (rendered : List String), st.sink.failAt = none →
      renderAll fmt vec = some rendered →
      (textPutData fmt st entity occ vec).okOut
        = some (st.sink.out ++ specLine st.produceOcc entity occ rendered))
    ∧ (∀ (st : TextState), st.sink.failAt = none →
      (textFinish st).okOut = some (st.sink.out ++ "\n"))
    ∧ (RResult.bind (textPutMetadata (textNew "emb.out" true) 2 2) (fun st1 =>
        RResult.bind (textPutData fmt st1 "x" 5 [1.5, -2.0]) textFinish)).okOut
        = some "2 2\nx 5 1.5 -2.0\n" := by
  refine ⟨fun st n d h => ?_, fun st e occ vec rendered h hr => ?_,
    fun st h => ?_, ?_⟩
  · rw [textPutMetadata, tfWrite_noFail st _ h]
    rfl
  · have h2 : ∀ (s2 : TextState), s2.sink.failAt = none → s2.produceOcc = st.produceOcc →
        (RResult.bind (if s2.produceOcc then tfWrite s2 (" " ++ toString occ) else .ok s2)
          (fun st3 => textWriteVector fmt st3 vec)).okOut
          = some (s2.sink.out ++ (if st.produceOcc then " " ++ toString occ else "")
              ++ joinAll (rendered.map fun r => " " ++ r)) := by
      intro s2 hs2 hsp
      by_cases hp : s2.produceOcc
      · rw [if_pos hp, tfWrite_noFail _ _ hs2]
        dsimp only [RResult.bind]
        rw [textWriteVector_okOut fmt vec _ rendered rfl hr]
        rw [← hsp, hp]
        simp [String.append_assoc]
      · rw [if_neg hp]
        dsimp only [RResult.bind]
        rw [textWriteVector_okOut fmt vec _ rendered hs2 hr]
        rw [← hsp]
        simp only [Bool.not_eq_true] at hp
        rw [hp]
        simp
    unfold textPutData
    rw [tfWrite_noFail st "\n" h]
    simp only [RResult.bind]
    rw [tfWrite_noFail _ e rfl]
    simp only [RResult.bind]
    have h3 := h2 { sink := { out := st.sink.out ++ "\n" ++ e, failAt := none,
                              writes := st.sink.writes + 1 + 1 },
                    produceOcc := st.produceOcc } rfl rfl
    dsimp only at h3
    simp only [RResult.bind] at h3
    rw [h3]
    simp [specLine, String.append_assoc]
  · rw [textFinish, tfWrite_noFail st _ h]
    rfl
  · dsimp only [textNew]
    rw [textPutMetadata, tfWrite_noFail _ _ rfl]
    dsimp only [RResult.bind]
    unfold textPutData
    rw [tfWrite_noFail _ "\n" rfl]
    dsimp only [RResult.bind]
    rw [tfWrite_noFail _ "x" rfl]
    dsimp only [RResult.bind]
    rw [if_pos rfl, tfWrite_noFail _ _ rfl]
    dsimp only [RResult.bind]
    unfold textWriteVector
    rw [tfWrite_noFail _ " " rfl]
    dsimp only
    rw [hf₁]
    dsimp only
    rw [tfWrite_noFail _ "1.5" rfl]
    dsimp only
    unfold textWriteVector
    rw [tfWrite_noFail _ " " rfl]
    dsimp only
    rw [hf₂]
    dsimp only
    rw [tfWrite_noFail _ "-2.0" rfl]
    dsimp only
    unfold textWriteVector
    dsimp only [RResult.bind]
    rw [textFinish, tfWrite_noFail _ "\n" rfl]
    dsimp only [RResult.okOut]
    decide

/-- Witness for claim C4 with a concrete formatter agreeing with ryu on the
two example coordinates, instantiating every part. -/
theorem claim_C4_witness :
    (textPutMetadata (textNew "emb.out" true) 2 2).okOut = some "2 2"
      ∧ (textPutData fmtW (textNew "v" true) "x" 5 [1.5, -2.0]).okOut
        = some (specLine true "x" 5 ["1.5", "-2.0"])
      ∧ (textFinish (textNew "f" false)).okOut = some "\n"
      ∧ (RResult.bind (textPutMetadata (textNew "emb.out" true) 2 2) (fun st1 =>
          RResult.bind (textPutData fmtW st1 "x" 5 [1.5, -2.0]) textFinish)).okOut
        = some "2 2\nx 5 1.5 -2.0\n" := by
  have hc := claim_C4 fmtW (by simp [fmtW]) (by norm_num [fmtW])
  refine ⟨?_, ?_, ?_, hc.2.2.2⟩
  · have := hc.1 (textNew "emb.out" true) 2 2 rfl
    simpa [textNew] using this
  · have := hc.2.1 (textNew "v" true) "x" 5 [1.5, -2.0] ["1.5", "-2.0"] rfl
      (by norm_num [renderAll, fmtW])
    simpa [textNew] using this
  · have := hc.2.2.1 (textNew "f" false) rfl
    simpa [textNew] using this

theorem renderAll_formatFinite (render : F32 → String) :
    ∀ (vec : List F32), renderAll (formatFinite render) vec = some (vec.map render) := by
  intro vec
  induction vec with
  | nil => rfl
  | cons v rest ih =>
    unfold renderAll
    rw [ih]
    rfl

theorem textPutData_okOut (fmt : α → Option String) (st : TextState)
    (e : String) (occ : Nat) (vec : List α) (rendered : List String)
    (h : st.sink.failAt = none) (hr : renderAll fmt vec = some rendered) :
    (textPutData fmt st e occ vec).okOut
      = some (st.sink.out ++ specLine st.produceOcc e occ rendered) := by
  have h2 : ∀ (s2 : TextState), s2.sink.failAt = none → s2.produceOcc = st.produceOcc →
      (RResult.bind (if s2.produceOcc then tfWrite s2 (" " ++ toString occ) else .ok s2)
        (fun st3 => textWriteVector fmt st3 vec)).okOut
        = some (s2.sink.out ++ (if st.produceOcc then " " ++ toString occ else "")
            ++ joinAll (rendered.map fun r => " " ++ r)) := by
    intro s2 hs2 hsp
    by_cases hp : s2.produceOcc
    · rw [if_pos hp, tfWrite_noFail _ _ hs2]
      dsimp only [RResult.bind]
      rw [textWriteVector_okOut fmt vec _ rendered rfl hr]
      rw [← hsp, hp]
      simp [String.append_assoc]
    · rw [if_neg hp]
      dsimp only [RResult.bind]
      rw [textWriteVector_okOut fmt vec _ rendered hs2 hr]
      rw [← hsp]
      simp only [Bool.not_eq_true] at hp
      rw [hp]
      simp
  unfold textPutData
  rw [tfWrite_noFail st "\n" h]
  simp only [RResult.bind]
  rw [tfWrite_noFail _ e rfl]
  simp only [RResult.bind]
  have h3 := h2 { sink := { out := st.sink.out ++ "\n" ++ e, failAt := none,
                            writes := st.sink.writes + 1 + 1 },
                  produceOcc := st.produceOcc } rfl rfl
  dsimp only at h3
  simp only [RResult.bind] at h3
  rw [h3]
  simp [specLine, String.append_assoc]

/-- Counterexample to claim C10 as stated: a NaN coordinate does not make the
call abort — `format_finite` performs no finiteness check and renders it as
some unspecified numerical value (a stand-in rendering here), so `put_data`
completes and its line contains that rendering. -/
theorem claim_C10_counterexample :
    textPutData (formatFinite renderW) (textNew "f" false) "e" 1 [F32.nan]
        ≠ RResult.panicked
      ∧ (textPutData (formatFinite renderW) (textNew "f" false) "e" 1 [F32.nan]).okOut
        = some "\ne 0" := by
  constructor
  · decide
  · decide

/-- Claim C10 as amended: the Line-Oriented Writer's `put_data` does not
require finite coordinates — `ryu::Buffer::format_finite` performs no
finiteness check and renders NaN and the infinities as some unspecified
numerical string, so the formatting step never aborts for any vector, finite
or not; with a healthy sink the call completes normally, writing each
coordinate's rendering. -/
theorem claim_C10 (render : F32 → String) :
    (∀ (st : TextState) (entity : String) (occ : Nat) (vec : List F32),
      textPutData (formatFinite render) st entity occ vec ≠ RResult.panicked)
    ∧ (∀ (st : TextState) (entity : String) (occ : Nat) (vec : List F32),
      st.sink.failAt = none →
      (textPutData (formatFinite render) st entity occ vec).okOut
        = some (st.sink.out
            ++ specLine st.produceOcc entity occ (vec.map render))) := by
  constructor
  · intro st e occ vec
    exact textPutData_ne_panicked _ st e occ vec fun v _ => rfl
  · intro st e occ vec h
    exact textPutData_okOut _ st e occ vec (vec.map render) h
      (renderAll_formatFinite render vec)

/-- Witness for claim C10 at concrete inputs (a non-finite coordinate in
each), discharging the sink hypothesis. -/
theorem claim_C10_witness :
    textPutData (formatFinite renderW) (textNew "f" false) "x" 5 [F32.posInf]
        ≠ RResult.panicked
      ∧ (textPutData (formatFinite renderW) (textNew "g" true) "x" 5 [F32.posInf]).okOut
        = some ((textNew "g" true).sink.out
            ++ specLine (textNew "g" true).produceOcc "x" 5 ([F32.posInf].map renderW)) :=
  ⟨(claim_C10 renderW).1 (textNew "f" false) "x" 5 [F32.posInf],
   (claim_C10 renderW).2 (textNew "g" true) "x" 5 [F32.posInf] rfl⟩

theorem setAtBoundary (done : List α) (r0 : α) (rest : List α) (v : α) :
    (done ++ r0 :: rest).set done.length v = done ++ v :: rest := by
  induction done with
  | nil => rfl
  | cons dd ds ih =>
    show dd :: (ds ++ r0 :: rest).set ds.length v = dd :: (ds ++ v :: rest)
    exact congrArg (dd :: ·) ih

theorem npyRun_fill :
    ∀ (records : List (ERecord ℚ)) (st : NpyState) (n d : Nat)
      (done rest : List (List ℚ)),
      st.shape = some (n, d) →
      st.matrix = done ++ rest →
      st.entities.length = done.length →
      done.length + rest.length = n →
      records.length ≤ rest.length →
      (∀ r ∈ records, r.vec.length = d) →
      runRecords npyPutData st records
        = .ok { st with
                matrix := done ++ records.map (·.vec) ++ rest.drop records.length
                entities := st.entities ++ records.map (·.name)
                occurences := st.occurences ++ records.map (·.occur) } := by
  intro records
  induction records with
  | nil =>
    intro st n d done rest _ h2 _ _ _ _
    show RResult.ok st = _
    simp only [List.length_nil, List.map_nil, List.append_nil, List.drop_zero, ← h2]
  | cons r rs ih =>
    intro st n d done rest h1 h2 h3 h4 h5 h6
    rcases rest with _ | ⟨r0, rest'⟩
    · simp at h5
    have h4' : done.length + rest'.length + 1 = n := by
      simp only [List.length_cons] at h4
      omega
    have hvd : r.vec.length = d := h6 r (by simp)
    have hlt : st.entities.length < n := by rw [h3]; omega
    have hstep : npyPutData st r.name r.occur r.vec
        = .ok { st with
                matrix := st.matrix.set st.entities.length r.vec
                entities := st.entities ++ [r.name]
                occurences := st.occurences ++ [r.occur] } := by
      unfold npyPutData
      rw [h1]
      dsimp only
      rw [if_pos ⟨hlt, hvd⟩]
    show RResult.bind _ _ = _
    rw [hstep]
    dsimp only [RResult.bind]
    have hm : st.matrix.set st.entities.length r.vec = (done ++ [r.vec]) ++ rest' := by
      rw [h2, h3, setAtBoundary]
      simp
    have ih2 := ih { st with
                     matrix := st.matrix.set st.entities.length r.vec
                     entities := st.entities ++ [r.name]
                     occurences := st.occurences ++ [r.occur] }
      n d (done ++ [r.vec]) rest'
      h1 hm (by simp [h3]) (by simp; omega) (by simp at h5 ⊢; omega)
      (fun x hx => h6 x (List.mem_cons_of_mem _ hx))
    rw [ih2]
    simp [List.append_assoc]

/-- Claim C1: on the Mapped-Array Writer, after declaring shape (N, D) and
submitting N records of dimension D one `put_data` call each, row i of the
mapped matrix is exactly the i-th submitted vector — the row index is the
number of records written so far, so the matrix depends only on the vectors,
not on the entity names or occurrence counts. -/
theorem claim_C1 (base : String) (produceOcc : Bool) (n d : Nat)
    (records : List (ERecord ℚ)) (hlen : records.length = n)
    (hdim : ∀ r ∈ records, r.vec.length = d) :
    runRecords npyPutData (npyPutMetadata (npyNew base produceOcc) n d) records
      = .ok { npyPutMetadata (npyNew base produceOcc) n d with
              matrix := records.map (·.vec)
              entities := records.map (·.name)
              occurences := records.map (·.occur) } := by
  have hdrop : (List.replicate n (List.replicate d (0 : ℚ))).drop records.length = [] :=
    List.drop_eq_nil_of_le (by simp [hlen])
  have h := npyRun_fill records (npyPutMetadata (npyNew base produceOcc) n d) n d
    [] (List.replicate n (List.replicate d 0))
    rfl (by simp [npyPutMetadata]) (by simp [npyPutMetadata, npyNew])
    (by simp) (by simp [hlen]) hdim
  rw [h]
  simp [npyPutMetadata, npyNew, hdrop]

/-- Witness for claim C1: two records into a 2x2 matrix. -/
theorem claim_C1_witness :
    runRecords npyPutData (npyPutMetadata (npyNew "base" true) 2 2)
        [⟨"a", 1, [1, 2]⟩, ⟨"b", 2, [3, 4]⟩]
      = .ok { npyPutMetadata (npyNew "base" true) 2 2 with
              matrix := ([⟨"a", 1, [1, 2]⟩, ⟨"b", 2, [3, 4]⟩] :
                  List (ERecord ℚ)).map (·.vec)
              entities := ([⟨"a", 1, [1, 2]⟩, ⟨"b", 2, [3, 4]⟩] :
                  List (ERecord ℚ)).map (·.name)
              occurences := ([⟨"a", 1, [1, 2]⟩, ⟨"b", 2, [3, 4]⟩] :
                  List (ERecord ℚ)).map (·.occur) } :=
  claim_C1 "base" true 2 2 [⟨"a", 1, [1, 2]⟩, ⟨"b", 2, [3, 4]⟩]
    (by decide) (by decide)

/-- Claim C8: the Mapped-Array Writer derives exactly the three paths
`<base>.entities`, `<base>.occurences` (created only when occurrence tracking
is enabled) and `<base>.npy`; `finish` writes the accumulated entity names,
in submission order, as structured text (`serde_json::to_writer_pretty`,
abstract here) to the `.entities` file, and iff the flag is set writes the
accumulated counts as an npy array to the `.occurences` file. -/
theorem claim_C8 (base : String) (produceOcc : Bool) (n d : Nat)
    (records : List (ERecord ℚ)) (jsonPretty : List String → String)
    (npyEnc : List Nat → String) (hlen : records.length ≤ n)
    (hdim : ∀ r ∈ records, r.vec.length = d) :
    ((npyNew base produceOcc).createdFiles
        = [base ++ ".entities"]
            ++ (if produceOcc then [base ++ ".occurences"] else [])
            ++ [base ++ ".npy"])
    ∧ ∃ st1,
        runRecords npyPutData (npyPutMetadata (npyNew base produceOcc) n d) records
          = .ok st1
        ∧ st1.entitiesPath = base ++ ".entities"
        ∧ st1.occurencesPath = base ++ ".occurences"
        ∧ st1.arrayPath = base ++ ".npy"
        ∧ npyFinish jsonPretty npyEnc st1
            = .ok { st1 with
                    entitiesOut := jsonPretty (records.map (·.name))
                    occurencesOut :=
                      if produceOcc then some (npyEnc (records.map (·.occur)))
                      else none } := by
  refine ⟨rfl, ?_⟩
  have h := npyRun_fill records (npyPutMetadata (npyNew base produceOcc) n d) n d
    [] (List.replicate n (List.replicate d 0))
    rfl (by simp [npyPutMetadata]) (by simp [npyPutMetadata, npyNew])
    (by simp) (by simp [hlen]) hdim
  refine ⟨_, h, rfl, rfl, rfl, ?_⟩
  unfold npyFinish
  cases produceOcc with
  | false => simp [npyPutMetadata, npyNew]
  | true => simp [npyPutMetadata, npyNew]

/-- Witness for claim C8 with concrete encoders, one record, tracking on. -/
theorem claim_C8_witness :
    ((npyNew "b" true).createdFiles
        = ["b" ++ ".entities"]
            ++ (if true then ["b" ++ ".occurences"] else [])
            ++ ["b" ++ ".npy"])
    ∧ ∃ st1,
        runRecords npyPutData (npyPutMetadata (npyNew "b" true) 2 2)
            [(⟨"a", 1, [1, 2]⟩ : ERecord ℚ)]
          = .ok st1
        ∧ st1.entitiesPath = "b" ++ ".entities"
        ∧ st1.occurencesPath = "b" ++ ".occurences"
        ∧ st1.arrayPath = "b" ++ ".npy"
        ∧ npyFinish jsonDump npyDump st1
            = .ok { st1 with
                    entitiesOut := jsonDump (([(⟨"a", 1, [1, 2]⟩ : ERecord ℚ)]).map (·.name))
                    occurencesOut :=
                      if true then some (npyDump (([(⟨"a", 1, [1, 2]⟩ : ERecord ℚ)]).map (·.occur)))
                      else none } :=
  claim_C8 "b" true 2 2 [⟨"a", 1, [1, 2]⟩] jsonDump npyDump (by decide) (by decide)

end Cleora
